import Mathlib

/-!
Shallow embedding of the restaurant reservation service
(src/routes/reservations.js, src/validators/reservation.js, the Sequelize
model and the Joi schemas), together with proofs of the specification
claims about it.

Modelling conventions:
* calendar dates (Sequelize DATEONLY) are day indices (days since an
  arbitrary epoch); times of day are the stored HH:MM strings;
* absolute time (the value of new Date() at request time) is minutes since
  the same epoch, so the instant denoted by a reservation is
  date * 1440 + minutes-of-day;
* strings are worked with through their character lists, mirroring the
  character-level behaviour of the JavaScript string operations used by the
  source (split on a colon, Number on a digit string, padStart);
* the database is a list of reservation rows plus the next auto-increment
  id; findOne/findAll/findByPk become List.find? / List.filter;
* the external table service (fetchTableInfo) is an environment function
  Nat -> Option Table: None models both an unreachable service and a
  non-ok response, exactly as fetchTableInfo collapses both to null.
-/

/-- JavaScript's `str.split(':')` on the character list of a string. -/
def splitOnColon : List Char → List (List Char)
  | [] => [[]]
  | c :: cs =>
    match splitOnColon cs, c == ':' with
    | rest, true => [] :: rest
    | [], false => [[c]]
    | g :: gs, false => (c :: g) :: gs

/-- Numeric value of a decimal digit character. -/
def digitVal (c : Char) : Nat := c.toNat - '0'.toNat

/-- JavaScript's `Number(s)` restricted to strings of decimal digits
(the only shape the pre-validated inputs can have). -/
def strToNat (l : List Char) : Nat := l.foldl (fun a c => a * 10 + digitVal c) 0

/-- JavaScript's `s.padStart(2, '0')`. -/
def padStart2 (l : List Char) : List Char :=
  if 2 ≤ l.length then l else List.replicate (2 - l.length) '0' ++ l

/-- `calculateEndTime` from src/routes/reservations.js: split the HH:MM
string on the colon, add two hours modulo 24, format both components
zero-padded to two characters. -/
def calculateEndTime (startTime : String) : String :=
  let parts := splitOnColon startTime.data
  let hours := strToNat (parts.getD 0 [])
  let minutes := strToNat (parts.getD 1 [])
  let endHours := (hours + 2) % 24
  String.mk (padStart2 (Nat.repr endHours).data) ++ ":" ++
    String.mk (padStart2 (Nat.repr minutes).data)

/-- The canonical zero-padded rendering HH:MM of an (hours, minutes) pair;
every valid HH:MM time-of-day string is uniquely of this form. -/
def formatHM (h m : Nat) : String :=
  String.mk (padStart2 (Nat.repr h).data) ++ ":" ++ String.mk (padStart2 (Nat.repr m).data)

/-- Minutes-of-day denoted by an HH:MM string; with the day index this gives
the instant produced by `new Date(date + "T" + time)` in the cancel handler,
measured in minutes. -/
def timeToMinutes (s : String) : Nat :=
  let parts := splitOnColon s.data
  strToNat (parts.getD 0 []) * 60 + strToNat (parts.getD 1 [])

/-- Reservation status: the bounded enumeration stored in the status column
(ENUM with values confirmed and cancelled). -/
inductive Status where
  | confirmed
  | cancelled
deriving DecidableEq, Repr

/-- The fields of the external table entity consumed by this service
(seating_capacity and is_active, plus the id). -/
structure Table where
  id : Nat
  seating_capacity : Nat
  is_active : Bool
deriving DecidableEq, Repr

/-- A reservation row, per the Sequelize model definition. -/
structure Reservation where
  id : Nat
  table_id : Nat
  customer_name : String
  customer_email : String
  customer_phone : String
  guest_count : Nat
  reservation_date : Nat
  slot_start_time : String
  slot_end_time : String
  status : Status
  special_requests : Option String
  created_at : Nat
  updated_at : Nat
deriving DecidableEq, Repr

/-- The reservations table plus the auto-increment counter. -/
structure State where
  reservations : List Reservation
  nextId : Nat
deriving DecidableEq, Repr

/-- Empty database; Sequelize auto-increment ids start at 1. -/
def initState : State := { reservations := [], nextId := 1 }

/-- Per-request environment: the table service (`fetchTableInfo`, where none
models both an unreachable service and a non-ok response), the current time
in minutes since the epoch (`new Date()` / Joi now), and Joi's email
predicate.  The email regular expression lives in the Joi library, not in
this repository, so it is kept abstract; no claim depends on it. -/
structure Env where
  tableLookup : Nat → Option Table
  now : Nat
  emailOk : String → Bool

/-- Body of a create request after JSON parsing (field types established by
Joi's type layer; the value constraints are checked by validateCreate). -/
structure CreateRequest where
  table_id : Nat
  customer_name : String
  customer_email : String
  customer_phone : String
  guest_count : Nat
  reservation_date : Nat
  slot_start_time : String
  special_requests : Option String
deriving DecidableEq, Repr

/-- Decimal digit character test, as used by the HH:MM regular expression. -/
def isDigitCh (c : Char) : Bool := decide ('0' ≤ c) && decide (c ≤ '9')

/-- The slot_start_time pattern from the Joi schema:
matches strings of shape ([01]digit or 2[0-3]) colon [0-5]digit. -/
def matchesHHMM (s : String) : Bool :=
  match s.data with
  | [h1, h2, c, m1, m2] =>
    ((h1 == '0' || h1 == '1') && isDigitCh h2 ||
      (h1 == '2' && decide ('0' ≤ h2) && decide (h2 ≤ '3'))) &&
    c == ':' &&
    (decide ('0' ≤ m1) && decide (m1 ≤ '5')) && isDigitCh m2
  | _ => false

/-- createReservationSchema from src/validators/reservation.js, validated
with abortEarly false (messages for every failing rule are collected, in
schema key order).  The date rule embeds Joi's semantics for
date().iso().min(now): the ISO date string parses to midnight of that
day, and the parsed instant must be at least the current instant, i.e.
now ≤ reservation_date * 1440 minutes. -/
def validateCreate (emailOk : String → Bool) (now : Nat) (req : CreateRequest) : List String :=
  (if 1 ≤ req.table_id then [] else ["table_id must be a positive number"]) ++
  (if 1 ≤ req.customer_name.length ∧ req.customer_name.length ≤ 100 then []
    else ["customer_name length must be between 1 and 100 characters"]) ++
  (if emailOk req.customer_email then [] else ["customer_email must be a valid email"]) ++
  (if 7 ≤ req.customer_phone.length ∧ req.customer_phone.length ≤ 20 then []
    else ["customer_phone length must be between 7 and 20 characters"]) ++
  (if 1 ≤ req.guest_count ∧ req.guest_count ≤ 20 then []
    else ["guest_count must be between 1 and 20"]) ++
  (if now ≤ req.reservation_date * 1440 then []
    else ["Reservation date must be today or in the future"]) ++
  (if matchesHHMM req.slot_start_time then []
    else ["slot_start_time must be in HH:MM format"]) ++
  (match req.special_requests with
    | none => []
    | some s => if s.length ≤ 500 then []
      else ["special_requests length must be at most 500 characters"])

/-- Outcome of the create route, one constructor per response the handler
can produce (the HTTP codes are 400 for validationError, tableNotFound,
tableInactive and capacityExceeded, 409 for conflict, 201 for created). -/
inductive CreateResult where
  | validationError (msgs : List String)
  | tableNotFound (table_id : Nat)
  | tableInactive (table_id : Nat)
  | capacityExceeded (guest_count seating_capacity : Nat)
  | conflict
  | created (r : Reservation)
deriving DecidableEq, Repr

/-- The row inserted by Reservation.create: the validated request fields,
the computed slot_end_time, status confirmed, fresh id and timestamps. -/
def newReservation (env : Env) (st : State) (req : CreateRequest) : Reservation :=
  { id := st.nextId
    table_id := req.table_id
    customer_name := req.customer_name
    customer_email := req.customer_email
    customer_phone := req.customer_phone
    guest_count := req.guest_count
    reservation_date := req.reservation_date
    slot_start_time := req.slot_start_time
    slot_end_time := calculateEndTime req.slot_start_time
    status := Status.confirmed
    special_requests := req.special_requests
    created_at := env.now
    updated_at := env.now }

/-- The double-booking query: Reservation.findOne with
table_id, reservation_date, slot_start_time and status confirmed. -/
def findConflict (rs : List Reservation) (req : CreateRequest) : Option Reservation :=
  rs.find? (fun r =>
    r.table_id == req.table_id && r.reservation_date == req.reservation_date &&
    r.slot_start_time == req.slot_start_time && r.status == Status.confirmed)

/-- The POST /api/reservations handler: structural validation, table lookup,
active check, capacity check, end-time computation, conflict check, insert. -/
def createReservation (env : Env) (st : State) (req : CreateRequest) : CreateResult × State :=
  match validateCreate env.emailOk env.now req with
  | e :: es => (CreateResult.validationError (e :: es), st)
  | [] =>
    match env.tableLookup req.table_id with
    | none => (CreateResult.tableNotFound req.table_id, st)
    | some table =>
      if !table.is_active then (CreateResult.tableInactive req.table_id, st)
      else if table.seating_capacity < req.guest_count then
        (CreateResult.capacityExceeded req.guest_count table.seating_capacity, st)
      else
        match findConflict st.reservations req with
        | some _ => (CreateResult.conflict, st)
        | none =>
          let r := newReservation env st req
          (CreateResult.created r,
            { reservations := st.reservations ++ [r], nextId := st.nextId + 1 })

/-- Outcome of the cancel route (404 notFound, 400 alreadyCancelled and
windowViolation, 200 ok). -/
inductive CancelResult where
  | notFound
  | alreadyCancelled
  | windowViolation
  | ok (r : Reservation)
deriving DecidableEq, Repr

/-- The instant (in minutes) a reservation starts:
new Date(reservation_date + "T" + slot_start_time). -/
def reservationStartMinutes (r : Reservation) : Nat :=
  r.reservation_date * 1440 + timeToMinutes r.slot_start_time

/-- The saved row after a successful cancel: status flipped to cancelled and
the Sequelize updatedAt timestamp set to the current time. -/
def cancelledReservation (r : Reservation) (now : Nat) : Reservation :=
  { r with status := Status.cancelled, updated_at := now }

/-- The PATCH /api/reservations/:id/cancel handler.  The source computes
diffHours = diffMs / 3600000 and rejects when diffHours < 1; with minute
precision that is exactly: reject when start - now < 60 minutes. -/
def cancelReservation (env : Env) (st : State) (rid : Nat) : CancelResult × State :=
  match st.reservations.find? (fun r => r.id == rid) with
  | none => (CancelResult.notFound, st)
  | some r =>
    if r.status == Status.cancelled then (CancelResult.alreadyCancelled, st)
    else
      if (reservationStartMinutes r : Int) - (env.now : Int) < 60 then
        (CancelResult.windowViolation, st)
      else
        let r' := cancelledReservation r env.now
        (CancelResult.ok r',
          { st with reservations := st.reservations.map (fun x => if x.id == rid then r' else x) })

/-- Query string of GET /api/reservations after Joi's type layer:
absent fields are none. -/
structure ListQuery where
  date : Option Nat
  table_id : Option Nat
  status : Option Status
  page : Option Nat
  limit : Option Nat
deriving DecidableEq, Repr

/-- queryReservationsSchema from src/validators/reservation.js:
table_id positive, page at least 1, limit between 1 and 50. -/
def validateQuery (q : ListQuery) : List String :=
  (match q.table_id with
    | none => []
    | some t => if 1 ≤ t then [] else ["table_id must be a positive number"]) ++
  (match q.page with
    | none => []
    | some p => if 1 ≤ p then [] else ["page must be greater than or equal to 1"]) ++
  (match q.limit with
    | none => []
    | some l => if 1 ≤ l ∧ l ≤ 50 then []
      else ["limit must be between 1 and 50"])

/-- The where clause built by the list handler: each filter applies only
when the query provides it. -/
def matchesFilters (q : ListQuery) (r : Reservation) : Bool :=
  (match q.date with | none => true | some d => r.reservation_date == d) &&
  (match q.table_id with | none => true | some t => r.table_id == t) &&
  (match q.status with | none => true | some s => r.status == s)

/-- The ORDER BY of the list handler: reservation_date ascending, then
slot_start_time ascending (lexicographic order on the HH:MM strings, which
on valid times is chronological order). -/
def reservationOrder (a b : Reservation) : Prop :=
  a.reservation_date < b.reservation_date ∨
    (a.reservation_date = b.reservation_date ∧ a.slot_start_time ≤ b.slot_start_time)

instance : DecidableRel reservationOrder := by
  intro a b
  unfold reservationOrder
  infer_instance

instance : IsTotal Reservation reservationOrder := by
  constructor
  intro a b
  rcases Nat.lt_trichotomy a.reservation_date b.reservation_date with h | h | h
  · exact Or.inl (Or.inl h)
  · rcases le_total a.slot_start_time b.slot_start_time with h' | h'
    · exact Or.inl (Or.inr ⟨h, h'⟩)
    · exact Or.inr (Or.inr ⟨h.symm, h'⟩)
  · exact Or.inr (Or.inl h)

instance : IsTrans Reservation reservationOrder := by
  constructor
  intro a b c hab hbc
  rcases hab with h1 | ⟨h1, h1'⟩
  · rcases hbc with h2 | ⟨h2, _⟩
    · exact Or.inl (h1.trans h2)
    · exact Or.inl (h2 ▸ h1)
  · rcases hbc with h2 | ⟨h2, h2'⟩
    · exact Or.inl (h1 ▸ h2)
    · exact Or.inr ⟨h1.trans h2, le_trans h1' h2'⟩

/-- Body of a successful list response. -/
structure ListResponse where
  reservations : List Reservation
  total : Nat
  page : Nat
  totalPages : Nat
deriving DecidableEq, Repr

/-- The GET /api/reservations handler: validate the query, apply the
filters, sort by (date, start time), paginate with
offset = (page - 1) * limit, and report total and
totalPages = ceil(total / limit) (for natural numbers and limit at least 1,
Math.ceil(total / limit) is (total + limit - 1) / limit). -/
def listReservations (st : State) (q : ListQuery) : Except (List String) ListResponse :=
  match validateQuery q with
  | e :: es => Except.error (e :: es)
  | [] =>
    let page := q.page.getD 1
    let limit := q.limit.getD 20
    let filtered := st.reservations.filter (matchesFilters q)
    let sorted := List.insertionSort reservationOrder filtered
    let offset := (page - 1) * limit
    Except.ok
      { reservations := (sorted.drop offset).take limit
        total := filtered.length
        page := page
        totalPages := (filtered.length + limit - 1) / limit }

/-- The table object embedded in a get-by-id response: the real table when
the lookup succeeds, otherwise the placeholder literal
(id plus the info marker) built by the handler. -/
inductive TableView where
  | info (t : Table)
  | placeholder (id : Nat) (note : String)
deriving DecidableEq, Repr

/-- Outcome of GET /api/reservations/:id (404 notFound, 200 ok). -/
inductive GetResult where
  | notFound
  | ok (r : Reservation) (table : TableView)
deriving DecidableEq, Repr

/-- The GET /api/reservations/:id handler: findByPk, then best-effort table
enrichment, degrading to the placeholder instead of failing. -/
def getReservationById (env : Env) (st : State) (rid : Nat) : GetResult :=
  match st.reservations.find? (fun r => r.id == rid) with
  | none => GetResult.notFound
  | some r =>
    match env.tableLookup r.table_id with
    | some t => GetResult.ok r (TableView.info t)
    | none => GetResult.ok r (TableView.placeholder r.table_id "Table details unavailable")

/-- The fixed slot list of the availability handler
(restaurant hours 10:00 to 22:00, two-hour slots). -/
def allSlots : List String := ["10:00", "12:00", "14:00", "16:00", "18:00", "20:00"]

/-- One entry of the availability response. -/
structure SlotInfo where
  start_time : String
  end_time : String
  available : Bool
deriving DecidableEq, Repr

/-- The booked start times for a table and date: the slot_start_time of
every confirmed reservation for them, truncated to the first five
characters (substring(0, 5), because the database TIME type returns
HH:MM:SS). -/
def bookedSlotTimes (st : State) (tableId date : Nat) : List String :=
  (st.reservations.filter (fun r =>
      r.table_id == tableId && r.reservation_date == date && r.status == Status.confirmed)).map
    (fun r => String.mk (r.slot_start_time.data.take 5))

/-- The slot list of GET /api/tables/:tableId/availability for a given
date: every fixed slot, with its computed end time, available exactly when
its start time is not among the booked start times. -/
def availabilitySlots (st : State) (tableId date : Nat) : List SlotInfo :=
  allSlots.map (fun s =>
    { start_time := s
      end_time := calculateEndTime s
      available := !(bookedSlotTimes st tableId date).contains s })

/-- The availability route including the missing-date check
(400 when the date query parameter is absent). -/
def availabilityRoute (st : State) (tableId : Nat) (date : Option Nat) :
    Except String (List SlotInfo) :=
  match date with
  | none => Except.error "date query parameter is required"
  | some d => Except.ok (availabilitySlots st tableId d)

/-- A state-changing operation together with its request environment; the
read-only routes (list, get, availability) are pure functions of the state
and appear above, so a sequential execution is a list of these. -/
inductive Op where
  | create (env : Env) (req : CreateRequest)
  | cancel (env : Env) (rid : Nat)

/-- State transition of one sequential operation. -/
def applyOp (st : State) : Op → State
  | Op.create env req => (createReservation env st req).2
  | Op.cancel env rid => (cancelReservation env st rid).2

/-- State after a sequence of operations. -/
def runOps (st : State) (ops : List Op) : State := ops.foldl applyOp st

/-- Two reservations book the same slot: same table, date and start time. -/
def sameTriple (a b : Reservation) : Prop :=
  a.table_id = b.table_id ∧ a.reservation_date = b.reservation_date ∧
    a.slot_start_time = b.slot_start_time

/-- No two distinct rows of the list are both confirmed for the same
(table, date, start time) triple. -/
def atMostOneConfirmed (rs : List Reservation) : Prop :=
  rs.Pairwise (fun a b =>
    a.status = Status.confirmed → b.status = Status.confirmed → ¬ sameTriple a b)

/-- Invariant of reachable database states: ids are below the counter, ids
are pairwise distinct, and confirmed reservations have distinct triples. -/
def StateInv (st : State) : Prop :=
  (∀ r ∈ st.reservations, r.id < st.nextId) ∧
  (st.reservations.map (fun r => r.id)).Nodup ∧
  atMostOneConfirmed st.reservations

def envW : Env :=
  { tableLookup := fun i => if i == 1 then some { id := 1, seating_capacity := 4, is_active := true } else none
    now := 0
    emailOk := fun _ => true }

def reqW : CreateRequest :=
  { table_id := 1
    customer_name := "John Doe"
    customer_email := "john@example.com"
    customer_phone := "+1234567890"
    guest_count := 3
    reservation_date := 20500
    slot_start_time := "18:00"
    special_requests := some "Window seat" }

/-- Row r' is the later version of row r: same identity and booking data,
the status either unchanged or flipped from confirmed to cancelled. -/
def survivesAs (r r' : Reservation) : Prop :=
  r'.id = r.id ∧ r'.table_id = r.table_id ∧
  r'.customer_name = r.customer_name ∧ r'.customer_email = r.customer_email ∧
  r'.customer_phone = r.customer_phone ∧ r'.guest_count = r.guest_count ∧
  r'.reservation_date = r.reservation_date ∧
  r'.slot_start_time = r.slot_start_time ∧ r'.slot_end_time = r.slot_end_time ∧
  r'.special_requests = r.special_requests ∧ r'.created_at = r.created_at ∧
  (r'.status = r.status ∨ (r.status = Status.confirmed ∧ r'.status = Status.cancelled))

def tableW : Table := { id := 1, seating_capacity := 4, is_active := true }

def rW : Reservation := newReservation envW initState reqW

def stW : State := { reservations := [rW], nextId := 2 }

def envNone : Env :=
  { tableLookup := fun _ => none, now := 0, emailOk := fun _ => true }

/-- A structurally well-formed request whose reservation_date is the
calendar day of the instant 600 minutes past the epoch (ten in the morning
of day 0). -/
def reqToday : CreateRequest :=
  { reqW with reservation_date := 0 }

def rCancelled : Reservation :=
  { rW with
    id := 2
    slot_start_time := "20:00"
    slot_end_time := "22:00"
    status := Status.cancelled }

def stW2 : State := { reservations := [rW, rCancelled], nextId := 3 }

def queryW : ListQuery :=
  { date := none, table_id := some 1, status := none, page := some 2, limit := some 1 }

theorem createReservation_created {env : Env} {st : State} {req : CreateRequest}
    {r : Reservation} {st' : State}
    (h : createReservation env st req = (CreateResult.created r, st')) :
    validateCreate env.emailOk env.now req = [] ∧
    (∃ t, env.tableLookup req.table_id = some t ∧ t.is_active = true ∧
      req.guest_count ≤ t.seating_capacity) ∧
    findConflict st.reservations req = none ∧
    r = newReservation env st req ∧
    st' = { reservations := st.reservations ++ [newReservation env st req],
            nextId := st.nextId + 1 } := by
  unfold createReservation at h
  split at h
  · simp at h
  next hv =>
    split at h
    · simp at h
    next table hl =>
      split at h
      · simp at h
      · split at h
        · simp at h
        next hcap =>
          split at h
          · simp at h
          next hconf =>
            simp only [Prod.mk.injEq, CreateResult.created.injEq] at h
            refine ⟨hv, ⟨table, hl, ?_, ?_⟩, hconf, h.1.symm, h.2.symm⟩
            · next hact _ => simpa using hact
            · omega

theorem createReservation_not_created {env : Env} {st : State} {req : CreateRequest}
    {res : CreateResult} {st' : State}
    (h : createReservation env st req = (res, st'))
    (hne : ∀ r, res ≠ CreateResult.created r) : st' = st := by
  unfold createReservation at h
  split at h
  · exact (Prod.mk.injEq .. ▸ h).2.symm
  · split at h
    · exact (Prod.mk.injEq .. ▸ h).2.symm
    · split at h
      · exact (Prod.mk.injEq .. ▸ h).2.symm
      · split at h
        · exact (Prod.mk.injEq .. ▸ h).2.symm
        · split at h
          · exact (Prod.mk.injEq .. ▸ h).2.symm
          · exact absurd ((Prod.mk.injEq .. ▸ h).1.symm) (hne _)

theorem cancelReservation_not_ok {env : Env} {st : State} {rid : Nat}
    {res : CancelResult} {st' : State}
    (h : cancelReservation env st rid = (res, st'))
    (hne : ∀ r, res ≠ CancelResult.ok r) : st' = st := by
  unfold cancelReservation at h
  split at h
  · exact (Prod.mk.injEq .. ▸ h).2.symm
  · split at h
    · exact (Prod.mk.injEq .. ▸ h).2.symm
    · split at h
      · exact (Prod.mk.injEq .. ▸ h).2.symm
      · exact absurd ((Prod.mk.injEq .. ▸ h).1.symm) (hne _)

theorem createReservation_state_cases (env : Env) (st : State) (req : CreateRequest) :
    (createReservation env st req).2 = st ∨
    (findConflict st.reservations req = none ∧
     (createReservation env st req).2 =
       { reservations := st.reservations ++ [newReservation env st req],
         nextId := st.nextId + 1 }) := by
  unfold createReservation
  split
  · exact Or.inl rfl
  · split
    · exact Or.inl rfl
    · split
      · exact Or.inl rfl
      · split
        · exact Or.inl rfl
        · split
          next hconf => exact Or.inl rfl
          next hconf => exact Or.inr ⟨hconf, rfl⟩

theorem cancelReservation_state_cases (env : Env) (st : State) (rid : Nat) :
    (cancelReservation env st rid).2 = st ∨
    (∃ r, st.reservations.find? (fun x => x.id == rid) = some r ∧
      (cancelReservation env st rid).2 =
        { st with reservations := st.reservations.map (fun x => if x.id == rid then cancelledReservation r env.now else x) }) := by
  unfold cancelReservation
  split
  · exact Or.inl rfl
  next r hfind =>
    split
    · exact Or.inl rfl
    · split
      · exact Or.inl rfl
      · exact Or.inr ⟨r, hfind, rfl⟩

theorem findConflict_none_iff (rs : List Reservation) (req : CreateRequest) :
    findConflict rs req = none ↔
      ∀ x ∈ rs, ¬(x.status = Status.confirmed ∧ x.table_id = req.table_id ∧
        x.reservation_date = req.reservation_date ∧
        x.slot_start_time = req.slot_start_time) := by
  unfold findConflict
  rw [List.find?_eq_none]
  constructor
  · intro h x hx hc
    have := h x hx
    simp only [Bool.and_eq_true, beq_iff_eq] at this
    exact this ⟨⟨⟨hc.2.1, hc.2.2.1⟩, hc.2.2.2⟩, hc.1⟩
  · intro h x hx hc
    simp only [Bool.and_eq_true, beq_iff_eq] at hc
    exact h x hx ⟨hc.2, hc.1.1.1, hc.1.1.2, hc.1.2⟩

theorem stateInv_applyOp {st : State} (hinv : StateInv st) (op : Op) :
    StateInv (applyOp st op) := by
  obtain ⟨hlt, hnd, huniq⟩ := hinv
  cases op with
  | create env req =>
    rcases createReservation_state_cases env st req with hc | ⟨hconf, hc⟩
    · simpa only [applyOp, hc] using ⟨hlt, hnd, huniq⟩
    · simp only [applyOp, hc]
      refine ⟨?_, ?_, ?_⟩
      · intro r hr
        rcases List.mem_append.mp hr with hr | hr
        · exact Nat.lt_succ_of_lt (hlt r hr)
        · simp only [List.mem_singleton] at hr
          subst hr
          exact Nat.lt_succ_self _
      · simp only [List.map_append, List.map_cons, List.map_nil]
        rw [List.nodup_append]
        refine ⟨hnd, List.nodup_singleton _, ?_⟩
        intro a ha hb
        simp only [List.mem_singleton] at hb
        rcases List.mem_map.mp ha with ⟨x, hx, hxa⟩
        have := hlt x hx
        simp only [newReservation] at hb
        omega
      · unfold atMostOneConfirmed
        rw [List.pairwise_append]
        refine ⟨huniq, List.pairwise_singleton _ _, ?_⟩
        intro a ha b hb hconfa hconfb htr
        simp only [List.mem_singleton] at hb
        subst hb
        have hnone := (findConflict_none_iff st.reservations req).mp hconf
        exact hnone a ha ⟨hconfa, htr.1, htr.2.1, htr.2.2⟩
  | cancel env rid =>
    rcases cancelReservation_state_cases env st rid with hc | ⟨r, hfind, hc⟩
    · simpa only [applyOp, hc] using ⟨hlt, hnd, huniq⟩
    · have hid : ∀ x : Reservation,
          (if x.id == rid then cancelledReservation r env.now else x).id = x.id := by
        intro x
        by_cases hx : x.id == rid
        · have hr := List.find?_some hfind
          simp only [beq_iff_eq] at hx hr
          simp [hx, hr, cancelledReservation]
        · simp [hx]
      simp only [applyOp, hc]
      refine ⟨?_, ?_, ?_⟩
      · intro x hx
        rcases List.mem_map.mp hx with ⟨y, hy, hxy⟩
        subst hxy
        rw [hid y]
        exact hlt y hy
      · have : (st.reservations.map
            (fun x => if x.id == rid then cancelledReservation r env.now else x)).map
              (fun x => x.id) = st.reservations.map (fun x => x.id) := by
          rw [List.map_map]
          exact List.map_congr_left (fun x _ => hid x)
        rw [this]
        exact hnd
      · unfold atMostOneConfirmed
        refine List.Pairwise.map _ ?_ huniq
        intro a b hab hca hcb htr
        by_cases ha : a.id == rid
        · simp only [ha, if_true, cancelledReservation] at hca
          exact Status.noConfusion hca
        · by_cases hb : b.id == rid
          · simp only [hb, if_true, cancelledReservation] at hcb
            exact Status.noConfusion hcb
          · simp only [ha, hb, if_false] at hca hcb htr
            exact hab hca hcb htr

theorem stateInv_runOps {st : State} (hinv : StateInv st) (ops : List Op) :
    StateInv (runOps st ops) := by
  induction ops generalizing st with
  | nil => exact hinv
  | cons op ops ih => exact ih (stateInv_applyOp hinv op)

theorem stateInv_init : StateInv initState := by
  refine ⟨?_, ?_, ?_⟩ <;> simp [initState, atMostOneConfirmed]

theorem survivesAs_refl (r : Reservation) : survivesAs r r := by
  unfold survivesAs
  exact ⟨rfl, rfl, rfl, rfl, rfl, rfl, rfl, rfl, rfl, rfl, rfl, Or.inl rfl⟩

theorem survivesAs_trans {a b c : Reservation} (h1 : survivesAs a b) (h2 : survivesAs b c) :
    survivesAs a c := by
  unfold survivesAs at h1 h2 ⊢
  obtain ⟨i1, t1, n1, e1, p1, g1, d1, s1, se1, sp1, c1, st1⟩ := h1
  obtain ⟨i2, t2, n2, e2, p2, g2, d2, s2, se2, sp2, c2, st2⟩ := h2
  refine ⟨i2.trans i1, t2.trans t1, n2.trans n1, e2.trans e1, p2.trans p1, g2.trans g1,
    d2.trans d1, s2.trans s1, se2.trans se1, sp2.trans sp1, c2.trans c1, ?_⟩
  rcases st1 with st1 | ⟨hconf, hcanc⟩
  · rcases st2 with st2 | ⟨hconf2, hcanc2⟩
    · exact Or.inl (st2.trans st1)
    · exact Or.inr ⟨st1 ▸ hconf2, hcanc2⟩
  · rcases st2 with st2 | ⟨hconf2, hcanc2⟩
    · exact Or.inr ⟨hconf, st2.trans hcanc⟩
    · rw [hcanc] at hconf2
      exact Status.noConfusion hconf2

theorem applyOp_preserves {st : State}
    (hnd : (st.reservations.map (fun r => r.id)).Nodup) (op : Op)
    {r : Reservation} (hr : r ∈ st.reservations) :
    ∃ r' ∈ (applyOp st op).reservations, survivesAs r r' := by
  cases op with
  | create env req =>
    rcases createReservation_state_cases env st req with hc | ⟨_, hc⟩
    · exact ⟨r, by simp only [applyOp, hc]; exact hr, survivesAs_refl r⟩
    · refine ⟨r, ?_, survivesAs_refl r⟩
      simp only [applyOp, hc]
      exact List.mem_append_left _ hr
  | cancel env rid =>
    rcases cancelReservation_state_cases env st rid with hc | ⟨rf, hfind, hc⟩
    · exact ⟨r, by simp only [applyOp, hc]; exact hr, survivesAs_refl r⟩
    · by_cases hid : r.id == rid
      · have hrf : rf = r := by
          have hmem := List.mem_of_find?_eq_some hfind
          have hpred := List.find?_some hfind
          simp only [beq_iff_eq] at hpred hid
          exact List.inj_on_of_nodup_map hnd hmem hr (by rw [hpred, hid])
        refine ⟨cancelledReservation r env.now, ?_, ?_⟩
        · simp only [applyOp, hc]
          have := List.mem_map_of_mem
            (fun x => if x.id == rid then cancelledReservation rf env.now else x) hr
          simpa only [hid, if_true, hrf] using this
        · unfold survivesAs cancelledReservation
          refine ⟨rfl, rfl, rfl, rfl, rfl, rfl, rfl, rfl, rfl, rfl, rfl, ?_⟩
          cases hst : r.status with
          | confirmed => exact Or.inr ⟨rfl, rfl⟩
          | cancelled => exact Or.inl rfl
      · refine ⟨r, ?_, survivesAs_refl r⟩
        simp only [applyOp, hc]
        have := List.mem_map_of_mem
          (fun x => if x.id == rid then cancelledReservation rf env.now else x) hr
        simpa only [hid, if_false] using this

theorem runOps_preserves {st : State} (hinv : StateInv st) (ops : List Op)
    {r : Reservation} (hr : r ∈ st.reservations) :
    ∃ r' ∈ (runOps st ops).reservations, survivesAs r r' := by
  induction ops generalizing st r with
  | nil => exact ⟨r, hr, survivesAs_refl r⟩
  | cons op ops ih =>
    obtain ⟨r', hr', hs'⟩ := applyOp_preserves hinv.2.1 op hr
    obtain ⟨r'', hr'', hs''⟩ := ih (stateInv_applyOp hinv op) hr'
    exact ⟨r'', hr'', survivesAs_trans hs' hs''⟩

/-- Claim C4: for every valid HH:MM time-of-day string, with hours in 0..23
and minutes in 0..59 (every such string is the zero-padded rendering
formatHM of its components), calculateEndTime returns the zero-padded HH:MM
string whose hour is (hours + 2) mod 24 and whose minutes are unchanged;
in particular 23:30 maps to 01:30 and 23:00 to 01:00. -/
theorem calculateEndTime_adds_two_hours_mod_24 :
    (∀ h : Fin 24, ∀ m : Fin 60,
      calculateEndTime (formatHM h.val m.val) = formatHM ((h.val + 2) % 24) m.val) ∧
    calculateEndTime "23:30" = "01:30" ∧
    calculateEndTime "23:00" = "01:00" :=
  ⟨by decide, by decide, by decide⟩

/-- Claim C9 is a code bug: at 600 minutes past midnight (so the current
calendar day is day 600 / 1440 = 0), a create request that is well formed in
every other field and whose reservation_date is that same current day is
rejected by the date rule with the very message that promises the opposite.
Joi's date().iso().min(now) compares the midnight instant denoted by the
date string against the current instant, so any moment strictly after
midnight rejects the current day. -/
theorem validateCreate_rejects_same_day :
    reqToday.reservation_date = 600 / 1440 ∧
    validateCreate (fun _ => true) 600 reqToday =
      ["Reservation date must be today or in the future"] := by
  constructor
  · decide
  · decide

/-- Claim C10: rejecting outcomes are atomic.  A create returning anything
other than created (structural validation failure, table not found, table
inactive, capacity exceeded, or conflict) leaves the database unchanged,
and a cancel returning anything other than ok (not found, already
cancelled, or window violation) leaves it unchanged too. -/
theorem rejections_write_nothing :
    (∀ env st req res st', createReservation env st req = (res, st') →
      (∀ r, res ≠ CreateResult.created r) → st' = st) ∧
    (∀ env st rid res st', cancelReservation env st rid = (res, st') →
      (∀ r, res ≠ CancelResult.ok r) → st' = st) :=
  ⟨fun _ _ _ _ _ h hne => createReservation_not_created h hne,
   fun _ _ _ _ _ h hne => cancelReservation_not_ok h hne⟩

theorem rejections_write_nothing_witness :
    (createReservation envNone initState reqW).2 = initState ∧
    (cancelReservation envW initState 7).2 = initState := by
  have h1 : (createReservation envNone initState reqW).1 =
      CreateResult.tableNotFound 1 := by decide
  have h2 : (cancelReservation envW initState 7).1 = CancelResult.notFound := by decide
  constructor
  · exact rejections_write_nothing.1 envNone initState reqW _ _ rfl
      (fun r h => CreateResult.noConfusion (h1 ▸ h))
  · exact rejections_write_nothing.2 envW initState 7 _ _ rfl
      (fun r h => CancelResult.noConfusion (h2 ▸ h))

/-- Claim C8: get-by-id returns 404 exactly when no reservation has the id;
otherwise it returns 200 with the reservation, enriched with the looked-up
table when the lookup succeeds and with the placeholder object (the table
id plus the details-unavailable marker) when the lookup fails — a failed
lookup never turns the read into an error. -/
theorem getById_degrades_gracefully :
    ∀ env st rid,
      (st.reservations.find? (fun r => r.id == rid) = none →
        getReservationById env st rid = GetResult.notFound) ∧
      (∀ r, st.reservations.find? (fun x => x.id == rid) = some r →
        (∀ t, env.tableLookup r.table_id = some t →
          getReservationById env st rid = GetResult.ok r (TableView.info t)) ∧
        (env.tableLookup r.table_id = none →
          getReservationById env st rid =
            GetResult.ok r (TableView.placeholder r.table_id "Table details unavailable"))) := by
  intro env st rid
  constructor
  · intro h
    simp [getReservationById, h]
  · intro r hfind
    constructor
    · intro t hl
      simp [getReservationById, hfind, hl]
    · intro hl
      simp [getReservationById, hfind, hl]

theorem getById_degrades_gracefully_witness :
    getReservationById envW stW 1 = GetResult.ok rW (TableView.info tableW) ∧
    getReservationById envNone stW 1 =
      GetResult.ok rW (TableView.placeholder rW.table_id "Table details unavailable") ∧
    getReservationById envW stW 9999 = GetResult.notFound := by
  refine ⟨?_, ?_, ?_⟩
  · exact (((getById_degrades_gracefully envW stW 1).2 rW (by decide)).1 tableW (by decide))
  · exact (((getById_degrades_gracefully envNone stW 1).2 rW (by decide)).2 (by decide))
  · exact ((getById_degrades_gracefully envW stW 9999).1 (by decide))

/-- Claim C3: cancelling an existing reservation is governed by, in order:
if its status is already cancelled it is rejected with alreadyCancelled
(this guard runs before any window computation); otherwise, with the
difference between the reservation's start instant and the current time
below sixty minutes (diffHours < 1) it is rejected with windowViolation;
otherwise it succeeds, the saved row has status cancelled, its update
timestamp is set to the current time, and every other field is unchanged. -/
theorem cancel_window_rules :
    ∀ env st rid r, st.reservations.find? (fun x => x.id == rid) = some r →
      (r.status = Status.cancelled →
        cancelReservation env st rid = (CancelResult.alreadyCancelled, st)) ∧
      (r.status ≠ Status.cancelled →
        ((reservationStartMinutes r : Int) - (env.now : Int) < 60 →
          cancelReservation env st rid = (CancelResult.windowViolation, st)) ∧
        (60 ≤ (reservationStartMinutes r : Int) - (env.now : Int) →
          cancelReservation env st rid =
            (CancelResult.ok (cancelledReservation r env.now),
             { st with reservations := st.reservations.map (fun x => if x.id == rid then cancelledReservation r env.now else x) }) ∧
          (cancelledReservation r env.now).status = Status.cancelled ∧
          (cancelledReservation r env.now).updated_at = env.now ∧
          (cancelledReservation r env.now).id = r.id ∧
          (cancelledReservation r env.now).table_id = r.table_id ∧
          (cancelledReservation r env.now).customer_name = r.customer_name ∧
          (cancelledReservation r env.now).customer_email = r.customer_email ∧
          (cancelledReservation r env.now).customer_phone = r.customer_phone ∧
          (cancelledReservation r env.now).guest_count = r.guest_count ∧
          (cancelledReservation r env.now).reservation_date = r.reservation_date ∧
          (cancelledReservation r env.now).slot_start_time = r.slot_start_time ∧
          (cancelledReservation r env.now).slot_end_time = r.slot_end_time ∧
          (cancelledReservation r env.now).special_requests = r.special_requests ∧
          (cancelledReservation r env.now).created_at = r.created_at)) := by
  intro env st rid r hfind
  constructor
  · intro hc
    unfold cancelReservation
    rw [hfind]
    simp [hc]
  · intro hc
    have hconf : r.status = Status.confirmed := by
      cases h : r.status
      · rfl
      · exact absurd h hc
    constructor
    · intro hlt
      unfold cancelReservation
      rw [hfind]
      simp only [hconf]
      rw [if_neg (by simp), if_pos hlt]
    · intro hge
      unfold cancelReservation
      rw [hfind]
      simp only [hconf]
      rw [if_neg (by simp), if_neg (by omega)]
      refine ⟨rfl, ?_⟩
      simp [cancelledReservation]

theorem cancel_window_rules_witness :
    cancelReservation envW stW 1 =
      (CancelResult.ok (cancelledReservation rW envW.now),
       { stW with reservations := stW.reservations.map (fun x => if x.id == 1 then cancelledReservation rW envW.now else x) }) :=
  ((((cancel_window_rules envW stW 1 rW (by decide)).2 (by decide)).2 (by decide)).1)

/-- Claim C2: for a create request that passes structural validation, the
outcome is decided by short-circuit checks in order: unknown table gives
tableNotFound; an inactive table gives tableInactive; a guest count above
the seating capacity gives capacityExceeded (equality passes); otherwise
the request conflicts, with a 409, exactly when a confirmed reservation
with the identical (table, date, start time) triple exists; and otherwise
the reservation is persisted with status confirmed and
slot_end_time = calculateEndTime(slot_start_time) and returned. -/
theorem create_check_order :
    ∀ env st req, validateCreate env.emailOk env.now req = [] →
      (env.tableLookup req.table_id = none →
        createReservation env st req = (CreateResult.tableNotFound req.table_id, st)) ∧
      (∀ t, env.tableLookup req.table_id = some t →
        (t.is_active = false →
          createReservation env st req = (CreateResult.tableInactive req.table_id, st)) ∧
        (t.is_active = true →
          (t.seating_capacity < req.guest_count →
            createReservation env st req =
              (CreateResult.capacityExceeded req.guest_count t.seating_capacity, st)) ∧
          (req.guest_count ≤ t.seating_capacity →
            ((∃ x ∈ st.reservations, x.status = Status.confirmed ∧
                x.table_id = req.table_id ∧ x.reservation_date = req.reservation_date ∧
                x.slot_start_time = req.slot_start_time) →
              createReservation env st req = (CreateResult.conflict, st)) ∧
            ((¬ ∃ x ∈ st.reservations, x.status = Status.confirmed ∧
                x.table_id = req.table_id ∧ x.reservation_date = req.reservation_date ∧
                x.slot_start_time = req.slot_start_time) →
              createReservation env st req =
                (CreateResult.created (newReservation env st req),
                 { reservations := st.reservations ++ [newReservation env st req], nextId := st.nextId + 1 }) ∧
              (newReservation env st req).status = Status.confirmed ∧
              (newReservation env st req).slot_end_time = calculateEndTime req.slot_start_time ∧
              (newReservation env st req).table_id = req.table_id ∧
              (newReservation env st req).reservation_date = req.reservation_date ∧
              (newReservation env st req).slot_start_time = req.slot_start_time ∧
              (newReservation env st req).guest_count = req.guest_count ∧
              (newReservation env st req).customer_name = req.customer_name)))) := by
  intro env st req hv
  constructor
  · intro hl
    unfold createReservation
    rw [hv, hl]
  · intro t hl
    constructor
    · intro hact
      unfold createReservation
      rw [hv, hl]
      simp [hact]
    · intro hact
      constructor
      · intro hcap
        unfold createReservation
        rw [hv, hl]
        simp only [hact, Bool.not_true, Bool.false_eq_true, if_false]
        rw [if_pos hcap]
      · intro hcap
        constructor
        · intro hex
          have hfc : findConflict st.reservations req ≠ none := by
            intro hnone
            obtain ⟨x, hx, hxc, hxt, hxd, hxs⟩ := hex
            exact (findConflict_none_iff st.reservations req).mp hnone x hx ⟨hxc, hxt, hxd, hxs⟩
          obtain ⟨y, hy⟩ := Option.ne_none_iff_exists'.mp hfc
          unfold createReservation
          rw [hv, hl]
          simp only [hact, Bool.not_true, Bool.false_eq_true, if_false]
          rw [if_neg (by omega), hy]
        · intro hnex
          have hfc : findConflict st.reservations req = none := by
            rw [findConflict_none_iff]
            intro x hx ⟨hxc, hxt, hxd, hxs⟩
            exact hnex ⟨x, hx, hxc, hxt, hxd, hxs⟩
          refine ⟨?_, rfl, rfl, rfl, rfl, rfl, rfl, rfl⟩
          unfold createReservation
          rw [hv, hl]
          simp only [hact, Bool.not_true, Bool.false_eq_true, if_false]
          rw [if_neg (by omega), hfc]

theorem create_check_order_witness :
    createReservation envW initState reqW =
      (CreateResult.created (newReservation envW initState reqW),
       { reservations := initState.reservations ++ [newReservation envW initState reqW],
         nextId := initState.nextId + 1 }) :=
  (((((create_check_order envW initState reqW (by decide)).2 tableW (by decide)).2
    (by decide)).2 (by decide)).2 (by decide)).1

theorem bookedSlotTimes_contains_iff (st : State) (tableId date : Nat)
    (hlen : ∀ r ∈ st.reservations, r.slot_start_time.data.length ≤ 5) (t : String) :
    (bookedSlotTimes st tableId date).contains t = true ↔
      ∃ r ∈ st.reservations, r.status = Status.confirmed ∧ r.table_id = tableId ∧
        r.reservation_date = date ∧ r.slot_start_time = t := by
  unfold bookedSlotTimes
  rw [List.elem_iff]
  constructor
  · intro hmem
    obtain ⟨r, hr, hrt⟩ := List.mem_map.mp hmem
    obtain ⟨hrmem, hpred⟩ := List.mem_filter.mp hr
    simp only [Bool.and_eq_true, beq_iff_eq] at hpred
    refine ⟨r, hrmem, hpred.2, hpred.1.1, hpred.1.2, ?_⟩
    rw [← hrt, List.take_of_length_le (hlen r hrmem)]
  · intro ⟨r, hrmem, hc, ht, hd, hs⟩
    rw [← hs]
    have : r.slot_start_time = String.mk (r.slot_start_time.data.take 5) := by
      rw [List.take_of_length_le (hlen r hrmem)]
    rw [this]
    exact List.mem_map_of_mem _
      (List.mem_filter.mpr ⟨hrmem, by simp [ht, hd, hc]⟩)

/-- Claim C5: for every table, date and database state (whose stored start
times are the validated five-character HH:MM strings), the availability
query returns exactly the six fixed slots 10:00 to 20:00 in order, each
with end_time = calculateEndTime(start), and each available exactly when
its start time is not the slot_start_time of any confirmed reservation for
that table and date — cancelled reservations never block a slot, and with
zero confirmed reservations every slot is available. -/
theorem availability_fixed_slots :
    ∀ st tableId date,
      (∀ r ∈ st.reservations, r.slot_start_time.data.length ≤ 5) →
      ((availabilitySlots st tableId date).map SlotInfo.start_time = allSlots) ∧
      ((availabilitySlots st tableId date).map SlotInfo.end_time =
        allSlots.map calculateEndTime) ∧
      (∀ s ∈ availabilitySlots st tableId date,
        (s.available = true ↔
          ¬ ∃ r ∈ st.reservations, r.status = Status.confirmed ∧ r.table_id = tableId ∧
            r.reservation_date = date ∧ r.slot_start_time = s.start_time)) ∧
      ((¬ ∃ r ∈ st.reservations, r.status = Status.confirmed ∧ r.table_id = tableId ∧
          r.reservation_date = date) →
        ∀ s ∈ availabilitySlots st tableId date, s.available = true) := by
  intro st tableId date hlen
  have hmem : ∀ s ∈ availabilitySlots st tableId date,
      s.available = !(bookedSlotTimes st tableId date).contains s.start_time := by
    intro s hs
    obtain ⟨a, _, ha⟩ := List.mem_map.mp hs
    rw [← ha]
  have hiff : ∀ s ∈ availabilitySlots st tableId date,
      (s.available = true ↔
        ¬ ∃ r ∈ st.reservations, r.status = Status.confirmed ∧ r.table_id = tableId ∧
          r.reservation_date = date ∧ r.slot_start_time = s.start_time) := by
    intro s hs
    rw [hmem s hs, Bool.not_eq_true', ← Bool.not_eq_true,
      bookedSlotTimes_contains_iff st tableId date hlen s.start_time]
  refine ⟨?_, ?_, hiff, ?_⟩
  · unfold availabilitySlots
    rw [List.map_map]
    exact List.map_id'' (fun _ => rfl) _
  · unfold availabilitySlots
    rw [List.map_map]
    rfl
  · intro hnone s hs
    rw [hiff s hs]
    intro ⟨r, hr, hc, ht, hd, _⟩
    exact hnone ⟨r, hr, hc, ht, hd⟩

theorem availability_fixed_slots_witness :
    ((availabilitySlots stW2 1 20500).map SlotInfo.start_time = allSlots) ∧
    ((availabilitySlots stW2 1 20500).map SlotInfo.end_time =
      allSlots.map calculateEndTime) ∧
    (∀ s ∈ availabilitySlots stW2 1 20500,
      (s.available = true ↔
        ¬ ∃ r ∈ stW2.reservations, r.status = Status.confirmed ∧ r.table_id = 1 ∧
          r.reservation_date = 20500 ∧ r.slot_start_time = s.start_time)) ∧
    ((¬ ∃ r ∈ stW2.reservations, r.status = Status.confirmed ∧ r.table_id = 1 ∧
        r.reservation_date = 20500) →
      ∀ s ∈ availabilitySlots stW2 1 20500, s.available = true) :=
  availability_fixed_slots stW2 1 20500 (by decide)

/-- Claim C1: under sequential execution, if a create request succeeds with
201 from a reachable state, then as long as the created reservation keeps
status confirmed, any later create request with the identical
(table, date, start time) triple that passes structural validation and the
table checks is answered with 409 conflict and writes nothing; and in
every state reachable by sequential operations, no two reservation rows
are both confirmed for the same triple. -/
theorem no_double_booking :
    (∀ ops₀ env req r st₁ ops env₂ req₂ t₂,
      createReservation env (runOps initState ops₀) req = (CreateResult.created r, st₁) →
      (∀ r' ∈ (runOps st₁ ops).reservations, r'.id = r.id → r'.status = Status.confirmed) →
      req₂.table_id = req.table_id →
      req₂.reservation_date = req.reservation_date →
      req₂.slot_start_time = req.slot_start_time →
      validateCreate env₂.emailOk env₂.now req₂ = [] →
      env₂.tableLookup req₂.table_id = some t₂ →
      t₂.is_active = true →
      req₂.guest_count ≤ t₂.seating_capacity →
      createReservation env₂ (runOps st₁ ops) req₂ =
        (CreateResult.conflict, runOps st₁ ops)) ∧
    (∀ ops, atMostOneConfirmed (runOps initState ops).reservations) := by
  constructor
  · intro ops₀ env req r st₁ ops env₂ req₂ t₂ hcr hstill ht hd hs hv₂ hl₂ hact₂ hcap₂
    have hinv₀ : StateInv (runOps initState ops₀) := stateInv_runOps stateInv_init ops₀
    obtain ⟨_, _, _, hr_eq, hst₁⟩ := createReservation_created hcr
    have hinv₁ : StateInv st₁ := by
      have := stateInv_applyOp hinv₀ (Op.create env req)
      simpa only [applyOp, hcr] using this
    have hrmem : r ∈ st₁.reservations := by
      rw [hst₁, hr_eq]
      exact List.mem_append_right _ (List.mem_singleton_self _)
    obtain ⟨r', hr'mem, hsurv⟩ := runOps_preserves hinv₁ ops hrmem
    have hconf' : r'.status = Status.confirmed := hstill r' hr'mem hsurv.1
    have hfields : r.table_id = req.table_id ∧ r.reservation_date = req.reservation_date ∧
        r.slot_start_time = req.slot_start_time := by
      rw [hr_eq]
      exact ⟨rfl, rfl, rfl⟩
    have hfc : findConflict (runOps st₁ ops).reservations req₂ ≠ none := by
      intro hnone
      refine (findConflict_none_iff _ req₂).mp hnone r' hr'mem
        ⟨hconf', ?_, ?_, ?_⟩
      · rw [hsurv.2.1, hfields.1, ht]
      · rw [hsurv.2.2.2.2.2.2.1, hfields.2.1, hd]
      · rw [hsurv.2.2.2.2.2.2.2.1, hfields.2.2, hs]
    obtain ⟨y, hy⟩ := Option.ne_none_iff_exists'.mp hfc
    unfold createReservation
    rw [hv₂, hl₂]
    simp only [hact₂, Bool.not_true, Bool.false_eq_true, if_false]
    rw [if_neg (by omega), hy]
  · intro ops
    exact (stateInv_runOps stateInv_init ops).2.2

theorem no_double_booking_witness :
    createReservation envW (runOps stW []) reqW = (CreateResult.conflict, runOps stW []) ∧
    atMostOneConfirmed (runOps initState [Op.create envW reqW, Op.create envW reqW]).reservations :=
  ⟨no_double_booking.1 [] envW reqW rW stW [] envW reqW tableW (by decide) (by decide)
      rfl rfl rfl (by decide) (by decide) rfl (by decide),
   no_double_booking.2 [Op.create envW reqW, Op.create envW reqW]⟩

/-- Claim C6: a reservation's status is always one of confirmed or
cancelled; across any operation applied to a reachable state, every
existing row survives (no operation deletes a reservation — cancellation
is a soft state change) with identity and booking data intact, and its
status either stays the same or moves from confirmed to cancelled — never
the reverse, and a cancelled row is never re-confirmed. -/
theorem status_lifecycle :
    (∀ r : Reservation, r.status = Status.confirmed ∨ r.status = Status.cancelled) ∧
    (∀ ops₀ op r, r ∈ (runOps initState ops₀).reservations →
      ∃ r' ∈ (applyOp (runOps initState ops₀) op).reservations, survivesAs r r') := by
  constructor
  · intro r
    cases h : r.status
    · exact Or.inl rfl
    · exact Or.inr rfl
  · intro ops₀ op r hr
    exact applyOp_preserves (stateInv_runOps stateInv_init ops₀).2.1 op hr

theorem status_lifecycle_witness :
    (rW.status = Status.confirmed ∨ rW.status = Status.cancelled) ∧
    (∃ r' ∈ (applyOp (runOps initState [Op.create envW reqW]) (Op.cancel envW 1)).reservations,
      survivesAs rW r') :=
  ⟨status_lifecycle.1 rW,
   status_lifecycle.2 [Op.create envW reqW] (Op.cancel envW 1) rW (by decide)⟩

theorem validateQuery_nil_bounds {q : ListQuery} (h : validateQuery q = []) :
    (∀ p, q.page = some p → 1 ≤ p) ∧
    (∀ l, q.limit = some l → 1 ≤ l ∧ l ≤ 50) ∧
    1 ≤ q.limit.getD 20 := by
  unfold validateQuery at h
  rw [List.append_eq_nil, List.append_eq_nil] at h
  obtain ⟨⟨-, hpage⟩, hlimit⟩ := h
  have h2 : ∀ l, q.limit = some l → 1 ≤ l ∧ l ≤ 50 := by
    intro l hlim
    simp only [hlim] at hlimit
    split at hlimit
    · next h1 => exact h1
    · exact List.noConfusion hlimit
  refine ⟨?_, h2, ?_⟩
  · intro p hp
    simp only [hp] at hpage
    split at hpage
    · next h1 => exact h1
    · exact List.noConfusion hpage
  · clear hlimit hpage
    cases hlim : q.limit with
    | none => simp [hlim]
    | some l => simpa using (h2 l hlim).1

theorem ceil_div_ge {total limit : Nat} (hl : 1 ≤ limit) :
    total ≤ (total + limit - 1) / limit * limit := by
  have h2 : total + limit - 1 < ((total + limit - 1) / limit + 1) * limit :=
    (Nat.div_lt_iff_lt_mul (by omega)).mp (Nat.lt_succ_self _)
  rw [Nat.succ_mul] at h2
  generalize (total + limit - 1) / limit * limit = M at h2 ⊢
  omega

theorem ceil_div_le {total limit k : Nat} (hl : 1 ≤ limit) (hk : total ≤ k * limit) :
    (total + limit - 1) / limit ≤ k := by
  rw [← Nat.lt_succ_iff, Nat.div_lt_iff_lt_mul (by omega), Nat.succ_mul]
  generalize k * limit = M at hk ⊢
  omega

/-- Claim C7: the list route rejects with 400 a provided page below 1 or a
provided limit outside 1..50; otherwise (page defaulting to 1 and limit to
20) it returns the reservations matching the optional date, table and
status filters, ordered by reservation date then start time, skipping
(page - 1) * limit rows and returning at most limit rows, together with
the total matching count and totalPages = ceil(total / limit) — computed
as (total + limit - 1) / limit and characterised as the least k with
total ≤ k * limit. -/
theorem list_pagination :
    ∀ st q,
      ((∃ p, q.page = some p ∧ p < 1) ∨ (∃ l, q.limit = some l ∧ (l < 1 ∨ 50 < l)) →
        ∃ msgs, msgs ≠ [] ∧ listReservations st q = Except.error msgs) ∧
      (validateQuery q = [] →
        ∃ resp, listReservations st q = Except.ok resp ∧
          resp.page = q.page.getD 1 ∧
          resp.total = (st.reservations.filter (matchesFilters q)).length ∧
          resp.totalPages = (resp.total + q.limit.getD 20 - 1) / q.limit.getD 20 ∧
          resp.total ≤ resp.totalPages * q.limit.getD 20 ∧
          (∀ k, resp.total ≤ k * q.limit.getD 20 → resp.totalPages ≤ k) ∧
          resp.reservations.length ≤ q.limit.getD 20 ∧
          List.Sorted reservationOrder resp.reservations ∧
          (∃ sorted, sorted.Perm (st.reservations.filter (matchesFilters q)) ∧
            List.Sorted reservationOrder sorted ∧
            resp.reservations =
              (sorted.drop ((q.page.getD 1 - 1) * q.limit.getD 20)).take
                (q.limit.getD 20))) := by
  intro st q
  constructor
  · intro hbad
    cases hvq : validateQuery q with
    | nil =>
      exfalso
      obtain ⟨hpage, hlimit, -⟩ := validateQuery_nil_bounds hvq
      rcases hbad with ⟨p, hp, hplt⟩ | ⟨l, hl, hlout⟩
      · exact absurd (hpage p hp) (by omega)
      · have := hlimit l hl
        omega
    | cons e es =>
      refine ⟨e :: es, by simp, ?_⟩
      unfold listReservations
      rw [hvq]
  · intro hvq
    obtain ⟨-, -, hlpos⟩ := validateQuery_nil_bounds hvq
    have heq : listReservations st q = Except.ok
        { reservations := ((List.insertionSort reservationOrder
              (st.reservations.filter (matchesFilters q))).drop
                ((q.page.getD 1 - 1) * q.limit.getD 20)).take (q.limit.getD 20)
          total := (st.reservations.filter (matchesFilters q)).length
          page := q.page.getD 1
          totalPages := ((st.reservations.filter (matchesFilters q)).length +
            q.limit.getD 20 - 1) / q.limit.getD 20 } := by
      unfold listReservations
      rw [hvq]
    refine ⟨_, heq, rfl, rfl, rfl, ceil_div_ge hlpos, fun k hk => ceil_div_le hlpos hk,
      List.length_take_le _ _, ?_, ?_⟩
    · exact List.Pairwise.sublist
        ((List.take_sublist _ _).trans (List.drop_sublist _ _))
        (List.sorted_insertionSort reservationOrder _)
    · exact ⟨List.insertionSort reservationOrder _,
        List.perm_insertionSort reservationOrder _,
        List.sorted_insertionSort reservationOrder _, rfl⟩

theorem list_pagination_witness :
    ∃ resp, listReservations stW2 queryW = Except.ok resp ∧
      resp.page = queryW.page.getD 1 ∧
      resp.total = (stW2.reservations.filter (matchesFilters queryW)).length ∧
      resp.totalPages = (resp.total + queryW.limit.getD 20 - 1) / queryW.limit.getD 20 ∧
      resp.total ≤ resp.totalPages * queryW.limit.getD 20 ∧
      (∀ k, resp.total ≤ k * queryW.limit.getD 20 → resp.totalPages ≤ k) ∧
      resp.reservations.length ≤ queryW.limit.getD 20 ∧
      List.Sorted reservationOrder resp.reservations ∧
      (∃ sorted, sorted.Perm (stW2.reservations.filter (matchesFilters queryW)) ∧
        List.Sorted reservationOrder sorted ∧
        resp.reservations =
          (sorted.drop ((queryW.page.getD 1 - 1) * queryW.limit.getD 20)).take
            (queryW.limit.getD 20)) :=
  (list_pagination stW2 queryW).2 (by decide)
